import Mathlib

/-!
Verification of the VisoLearn game-state reconciliation and feature-matching
logic, shallowly embedded from the repository sources.  The authoritative
code is the most mature revision of the chat action handler in
`src/app/routes/api.chat.ts` (the second revision in that file), the session
restore logic in `src/app/routes/_index.tsx`, and the hint wrapper
`getGeminiHint` in `src/unnamed/part_005` (`gemini.server.ts`).

Strings are modelled as `List Char`.  JavaScript string built-ins used by the
code (`toLowerCase`, `trim`, `includes`, array `includes`, `filter`,
`new Set`) are modelled below; the game strings involved are ASCII, so the
ASCII-only lowering is faithful on the inputs of interest.
-/

deriving instance DecidableEq for Except

namespace VisoLearn

/-- Model of JavaScript `String.prototype.toLowerCase` for ASCII characters:
maps characters in the range A-Z to the corresponding lower-case letter and
leaves every other character unchanged. -/
def jsToLower (c : Char) : Char :=
  if 'A' ≤ c ∧ c ≤ 'Z' then Char.ofNat (c.toNat + 32) else c

/-- Lower-case a whole string (list of characters), as `s.toLowerCase()`. -/
def lowerList (s : List Char) : List Char := s.map jsToLower

/-- Whitespace characters removed by `String.prototype.trim` (the ones
occurring in the inputs of interest: space, tab, newline, carriage return). -/
def jsWhitespace (c : Char) : Bool :=
  c = ' ' || c = '\t' || c = '\n' || c = '\r'

/-- Model of `String.prototype.trim`: drop whitespace from both ends. -/
def trimList (s : List Char) : List Char :=
  ((s.dropWhile jsWhitespace).reverse.dropWhile jsWhitespace).reverse

/-- The normalized guess: `userAttempt.toLowerCase().trim()` from
`api.chat.ts` line 198. -/
def normalizeGuess (g : List Char) : List Char := trimList (lowerList g)

/-- The normalized feature: `feature.toLowerCase().trim()` from
`api.chat.ts` line 206. -/
def normalizeFeature (f : List Char) : List Char := trimList (lowerList f)

/-- Does `needle` occur in `haystack` starting at index `i`?  Used to model
`String.prototype.includes` and regex literal search. -/
def matchesAt (needle haystack : List Char) (i : Nat) : Bool :=
  (haystack.drop i).take needle.length == needle

/-- Model of JavaScript `String.prototype.includes`: `needle` occurs
somewhere in `haystack`. -/
def containsSub (needle haystack : List Char) : Bool :=
  (List.range (haystack.length + 1)).any (matchesAt needle haystack)

/-- A JavaScript regex word character (`\w`): letters, digits, underscore. -/
def jsWordChar (c : Char) : Bool :=
  ('a' ≤ c && c ≤ 'z') || ('A' ≤ c && c ≤ 'Z') || ('0' ≤ c && c ≤ '9') || c = '_'

/-- Is the character at index `i` of `l` a word character?  Out-of-range
positions count as non-word, matching the regex model where the text is
flanked by virtual non-word positions. -/
def isWordAt (l : List Char) (i : Nat) : Bool :=
  match l.get? i with
  | some c => jsWordChar c
  | none => false

/-- A JavaScript `\b` word boundary holds between positions `i - 1` and `i`
of `l`: exactly one of the two adjacent positions holds a word character. -/
def boundaryAt (l : List Char) (i : Nat) : Bool :=
  (if i = 0 then false else isWordAt l (i - 1)) != isWordAt l i

/-- The literal text `needle` occurs in `haystack` at a position with a `\b`
word boundary on each side: the model of `new RegExp("\\b" + needle +
"\\b").test(haystack)` for a `needle` free of regex metacharacters. -/
def containsWholeWord (needle haystack : List Char) : Bool :=
  (List.range (haystack.length + 1)).any
    (fun i => matchesAt needle haystack i && boundaryAt haystack i &&
      boundaryAt haystack (i + needle.length))

/-- Characters with special meaning in a JavaScript regex pattern.  A string
containing none of these is interpreted literally by `new RegExp` and the
construction cannot throw. -/
def regexMeta (c : Char) : Bool :=
  c = '\\' || c = '^' || c = '$' || c = '.' || c = '|' || c = '?' || c = '*' ||
  c = '+' || c = '(' || c = ')' || c = '[' || c = ']' || c = '{' || c = '}'

/-- A string that is safe to interpolate into a regex pattern: it contains no
regex metacharacter, so `new RegExp("\\b" + s + "\\b")` compiles and searches
for `s` literally.  A guess containing a metacharacter either throws at
`RegExp` construction (for example an unmatched parenthesis) or is
reinterpreted as regex syntax; the embedding treats every such guess as the
exceptional case, which is the behavior at every input the claims exercise. -/
def regexSafe (s : List Char) : Bool := s.all (fun c => !regexMeta c)

/-- The per-feature test of `api.chat.ts` lines 214-221, applied to the
already-normalized guess and feature: exact equality, or the feature contains
"type of ears" or "folded" as a whole word (a constant regex independent of
the guess), or the feature contains the guess delimited by word boundaries.
The last disjunct interpolates the raw guess into a regex, so it is reached
only behind the two earlier disjuncts (JavaScript `||` short-circuit) and is
modelled as an exception when the guess is not regex-safe. -/
def featureTest (lowerAttempt lowerFeature : List Char) : Except Unit Bool :=
  if lowerAttempt == lowerFeature then Except.ok true
  else if containsWholeWord "type of ears".toList lowerFeature ||
      containsWholeWord "folded".toList lowerFeature then Except.ok true
  else if regexSafe lowerAttempt then
    Except.ok (containsWholeWord lowerAttempt lowerFeature)
  else Except.error ()

/-- The filter predicate of `api.chat.ts` lines 205-222: skip a feature whose
normalized form is already in the lower-cased found list (line 209; note the
found list is lower-cased but not trimmed, line 199), otherwise run the
matching test. -/
def featurePredicate (lowerAttempt : List Char) (correctLower : List (List Char))
    (feature : List Char) : Except Unit Bool :=
  let lowerFeature := normalizeFeature feature
  if correctLower.contains lowerFeature then Except.ok false
  else featureTest lowerAttempt lowerFeature

/-- The value of `featurePredicate` on a regex-safe guess, as a pure boolean:
the feature is not already found, and one of the three disjuncts of the
matching test holds. -/
def featurePredicateBool (lowerAttempt : List Char) (correctLower : List (List Char))
    (feature : List Char) : Bool :=
  let lowerFeature := normalizeFeature feature
  !(correctLower.contains lowerFeature) &&
    (lowerAttempt == lowerFeature ||
     containsWholeWord "type of ears".toList lowerFeature ||
     containsWholeWord "folded".toList lowerFeature ||
     containsWholeWord lowerAttempt lowerFeature)

/-- `Array.prototype.filter` with an exception-throwing callback: the array is
traversed left to right and the first exception aborts the whole call. -/
def filterExcept {α : Type} (p : α → Except Unit Bool) : List α → Except Unit (List α)
  | [] => Except.ok []
  | x :: xs =>
    match p x with
    | Except.error e => Except.error e
    | Except.ok b =>
      match filterExcept p xs with
      | Except.error e => Except.error e
      | Except.ok rest => Except.ok (if b then x :: rest else rest)

/-- The feature-matching step of `api.chat.ts` lines 197-222 before the final
`.map`: the sublist of `imageFeatures` that pass `featurePredicate` against
the normalized guess and the lower-cased found list, or an exception if the
dynamically built regex throws while filtering. -/
def matchedFeatures (guess : List Char) (imageFeatures correctFeatures : List (List Char)) :
    Except Unit (List (List Char)) :=
  filterExcept (featurePredicate (normalizeGuess guess) (correctFeatures.map lowerList))
    imageFeatures

/-- The `newlyFoundFeatures` value of `api.chat.ts` lines 204-223: the
matched features mapped through `toLowerCase` (line 223, no trim). -/
def newlyFoundFeatures (guess : List Char) (imageFeatures correctFeatures : List (List Char)) :
    Except Unit (List (List Char)) :=
  (matchedFeatures guess imageFeatures correctFeatures).map (fun l => l.map lowerList)

/-- The help-request test of `api.chat.ts` lines 235-238: the normalized
guess contains "help", "hint" or "clue" as a substring. -/
def isHelpRequest (lowerAttempt : List Char) : Bool :=
  containsSub "help".toList lowerAttempt ||
  containsSub "hint".toList lowerAttempt ||
  containsSub "clue".toList lowerAttempt

/-- Model of `[...new Set(l)]`: deduplicate keeping the first occurrence of
each element, in order. -/
def jsSetDedup {α : Type} [DecidableEq α] : List α → List α
  | [] => []
  | x :: xs => x :: (jsSetDedup xs).filter (fun y => y ≠ x)

/-- The client-held game state fields that the chat action reads: the image
feature list, the list of features found so far (original casing) and the
attempt counter (an integer, since the action parses it with `parseInt` and
clamps it only on the decrement path). -/
structure GameState where
  imageFeatures : List (List Char)
  correctFeatures : List (List Char)
  attemptsRemaining : Int
deriving DecidableEq

/-- The response computed by the chat action of `api.chat.ts` lines 226-287:
the deduplicated updated found list, the updated attempt counter and the two
end-condition flags. -/
structure ChatResponse where
  correctFeatures : List (List Char)
  attemptsRemaining : Int
  allFeaturesFound : Bool
  gameTrulyFinished : Bool
deriving DecidableEq

/-- The state update of `api.chat.ts` lines 226-250 for a successfully
filtered guess: `newlyFound` is the lower-cased matched list (line 223), the
found list is extended with the original-cased image features whose
lower-casing is in it (lines 226-231) and deduplicated with a `Set`
(line 232), attempts decrement (clamped at 0) exactly when nothing was found
and the guess is not a help request (lines 240-244), all features are found
when the deduplicated list has the same length as the feature list
(lines 247-248), and the game is finished when all features are found or the
updated attempts are at most 0 (lines 249-250). -/
def mkResponse (s : GameState) (guess : List Char) (matched : List (List Char)) :
    ChatResponse :=
  let newlyFound := matched.map lowerList
  let uniqueCorrect := jsSetDedup (s.correctFeatures ++
    s.imageFeatures.filter (fun f => newlyFound.contains (lowerList f)))
  let shouldDecrement := newlyFound.isEmpty && !(isHelpRequest (normalizeGuess guess))
  let updatedAttempts :=
    if shouldDecrement then max 0 (s.attemptsRemaining - 1) else s.attemptsRemaining
  { correctFeatures := uniqueCorrect,
    attemptsRemaining := updatedAttempts,
    allFeaturesFound := uniqueCorrect.length == s.imageFeatures.length,
    gameTrulyFinished := (uniqueCorrect.length == s.imageFeatures.length) ||
      decide (updatedAttempts ≤ 0) }

/-- One request to the chat action (`api.chat.ts` second revision): run the
feature matcher, and on success compute the response; a matcher exception
propagates to the route-level catch, which replies with an error and leaves
the client state untouched. -/
def applyGuess (s : GameState) (guess : List Char) : Except Unit ChatResponse :=
  match matchedFeatures guess s.imageFeatures s.correctFeatures with
  | Except.error e => Except.error e
  | Except.ok matched => Except.ok (mkResponse s guess matched)

/-- The client state after accepting a successful chat response: features are
unchanged, the found list and attempt counter are taken from the response. -/
def nextState (s : GameState) (r : ChatResponse) : GameState :=
  { imageFeatures := s.imageFeatures,
    correctFeatures := r.correctFeatures,
    attemptsRemaining := r.attemptsRemaining }

/-- States reachable in the client loop: a fresh game starts with an empty
found list and a non-negative attempt allowance (the setup form only submits
attempts in 1-50), and each successful chat round replaces the state by the
response fields.  A request whose matcher throws leaves the state unchanged,
so it needs no constructor. -/
inductive Reachable : GameState → Prop where
  | init (features : List (List Char)) (maxAttempts : Int) (h : 0 ≤ maxAttempts) :
      Reachable ⟨features, [], maxAttempts⟩
  | step (s : GameState) (g : List Char) (r : ChatResponse) (hs : Reachable s)
      (h : applyGuess s g = Except.ok r) : Reachable (nextState s r)

/-- The client-persisted snapshot fields read by the restore logic of
`_index.tsx` lines 384-433: `imageId` is `none` when the snapshot has no
image (a falsy `savedState.image`). -/
structure ClientGameState where
  imageId : Option Int
  gameStarted : Bool
  gameTrulyFinished : Bool
  correctFeatures : List (List Char)
  attemptsRemaining : Int
  maxAttempts : Int
  winThreshold : Int
deriving DecidableEq

/-- The restore decision of `_index.tsx` lines 380-433: a parsed snapshot is
restored only when it has an image, the game was started and not finished,
the URL carries an image id and the snapshot image id equals it; the restored
state keeps the snapshot but takes `maxAttempts` and `winThreshold` from the
loader and clamps the attempt counter into `[0, maxAttempts]`.  In every
other case the snapshot is discarded (the stored item is removed and the
setup-screen state is used), modelled by `none`. -/
def resumeSession (saved : Option ClientGameState) (urlImageId : Option Int)
    (loaderMax loaderWin : Int) : Option ClientGameState :=
  match saved with
  | none => none
  | some st =>
    if st.imageId.isSome && st.gameStarted && !st.gameTrulyFinished &&
        urlImageId.isSome && decide (st.imageId = urlImageId) then
      some { st with
        maxAttempts := loaderMax,
        winThreshold := loaderWin,
        attemptsRemaining := min (max st.attemptsRemaining 0) loaderMax }
    else none

/-- Outcome of the provider call inside `getGeminiHint`
(`src/unnamed/part_005` lines 54-75): either the chat round-trip succeeds and
the response carries optional text, or some step throws an `Error` carrying a
message. -/
inductive GeminiOutcome where
  | success (text : Option (List Char))
  | failure (message : List Char)
deriving DecidableEq

/-- The reply used when the provider returns a response without text
(`part_005` line 75). -/
def noTextMessage : List Char :=
  "I'm not sure how to respond to that. Try describing something else!".toList

/-- The reply used when the provider rejects the request on safety grounds
(`part_005` line 79). -/
def safetyBlockedMessage : List Char :=
  "I can't provide a hint for that due to safety settings. Please try describing a different aspect.".toList

/-- The reply used for any other provider or network error
(`part_005` line 81). -/
def genericFailureMessage : List Char :=
  "Sorry, I encountered an error processing that hint. Please try again.".toList

/-- The error handling of `getGeminiHint` (`part_005` lines 49-83), as a
function of the provider outcome: the whole body is wrapped in a `try`/`catch`
so the function always returns a string and never raises; a caught error whose
message includes "SAFETY" yields the content-blocked reply, any other caught
error yields the generic apology. -/
def getGeminiHint (outcome : GeminiOutcome) : List Char :=
  match outcome with
  | GeminiOutcome.success (some t) => t
  | GeminiOutcome.success none => noTextMessage
  | GeminiOutcome.failure msg =>
    if containsSub "SAFETY".toList msg then safetyBlockedMessage
    else genericFailureMessage

/-- The matching rule stated by the specification for the Feature Matcher
(spec section 4.1 step 3), written from the spec words for comparison with
the code: after trimming and lower-casing both strings, the guess equals the
feature, or the guess contains the feature as a substring, or the feature
contains the guess as a substring. -/
def specTripleOrRule (guess feature : List Char) : Bool :=
  let ng := trimList (lowerList guess)
  let nf := trimList (lowerList feature)
  ng == nf || containsSub nf ng || containsSub ng nf

end VisoLearn

namespace VisoLearn

example : normalizeGuess "  Dog House ".toList = "dog house".toList := by decide

example : containsWholeWord "folded".toList "folded ears".toList = true := by decide

example : containsWholeWord "dog house".toList "dog".toList = false := by decide

example : containsSub "hint".toList "can i get a hint".toList = true := by decide

example : matchedFeatures "dog house".toList ["dog".toList] [] = Except.ok [] := by
  decide

example : matchedFeatures "(".toList ["dog".toList] [] = Except.error () := by
  decide

example :
    applyGuess ⟨["dog".toList], [], 3⟩ "xyz".toList =
      Except.ok ⟨[], 2, false, false⟩ := by decide

example :
    applyGuess ⟨["dog".toList], [], 0⟩ "xyz".toList =
      Except.ok ⟨[], 0, false, true⟩ := by decide

example :
    applyGuess ⟨["hint".toList], [], 5⟩ "hint".toList =
      Except.ok ⟨["hint".toList], 5, true, true⟩ := by decide

example :
    resumeSession (some ⟨some 1, true, true, [], 2, 5, 3⟩) (some 1) 5 3 = none := by
  decide

example : specTripleOrRule "dog house".toList "dog".toList = true := by decide

/-- On a regex-safe guess the per-feature predicate never throws and computes
the pure boolean `featurePredicateBool`. -/
theorem featurePredicate_eq_ok (la : List Char) (cl : List (List Char)) (f : List Char)
    (hsafe : regexSafe la = true) :
    featurePredicate la cl f = Except.ok (featurePredicateBool la cl f) := by
  unfold featurePredicate featurePredicateBool featureTest
  by_cases h1 : normalizeFeature f ∈ cl
  · simp [h1]
  · by_cases h2 : la = normalizeFeature f
    · simp [h1, h2]
    · by_cases h3 : containsWholeWord "type of ears".toList (normalizeFeature f) = true ∨
          containsWholeWord "folded".toList (normalizeFeature f) = true
      · rcases h3 with h3 | h3 <;> simp at h3 <;> simp [h1, h2, h3]
      · simp at h3
        simp [h1, h2, h3.1, h3.2, hsafe]

/-- When the callback returns `Except.ok (q x)` at every element, the
exception-aware filter reduces to the ordinary filter. -/
theorem filterExcept_eq_filter {α : Type} (p : α → Except Unit Bool) (q : α → Bool)
    (l : List α) (h : ∀ x ∈ l, p x = Except.ok (q x)) :
    filterExcept p l = Except.ok (l.filter q) := by
  induction l with
  | nil => rfl
  | cons x xs ih =>
    have hx : p x = Except.ok (q x) := h x (List.mem_cons_self x xs)
    have hxs : filterExcept p xs = Except.ok (xs.filter q) :=
      ih (fun y hy => h y (List.mem_cons_of_mem x hy))
    simp [filterExcept, hx, hxs, List.filter_cons]

/-- An element of the input on which the callback succeeds with `true` is in
any successful output of the exception-aware filter. -/
theorem mem_of_filterExcept_ok {α : Type} {p : α → Except Unit Bool} {l m : List α}
    {x : α} (h : filterExcept p l = Except.ok m) (hx : x ∈ l)
    (hp : p x = Except.ok true) : x ∈ m := by
  induction l generalizing m with
  | nil => cases hx
  | cons a l ih =>
    rw [filterExcept] at h
    cases hpa : p a with
    | error e => rw [hpa] at h; cases h
    | ok b =>
      rw [hpa] at h
      cases hrest : filterExcept p l with
      | error e => rw [hrest] at h; cases h
      | ok rest =>
        rw [hrest] at h
        injection h with h
        subst h
        rcases List.mem_cons.mp hx with rfl | hxl
        · have hb : b = true := by
            rw [hp] at hpa
            exact (Except.ok.inj hpa).symm
          subst hb
          simp
        · have hr : x ∈ rest := ih hrest hxl
          cases b <;> simp [hr]

/-- On a regex-safe guess the whole matcher never throws and is the ordinary
filter by the pure predicate. -/
theorem matchedFeatures_eq_filter {g : List Char} {fs found : List (List Char)}
    (hsafe : regexSafe (normalizeGuess g) = true) :
    matchedFeatures g fs found =
      Except.ok (fs.filter
        (featurePredicateBool (normalizeGuess g) (found.map lowerList))) := by
  unfold matchedFeatures
  exact filterExcept_eq_filter _ _ _ (fun f _ => featurePredicate_eq_ok _ _ f hsafe)

/-- Membership in the first-occurrence deduplication is membership in the
original list. -/
theorem mem_jsSetDedup {α : Type} [DecidableEq α] {a : α} {l : List α} :
    a ∈ jsSetDedup l ↔ a ∈ l := by
  induction l with
  | nil => simp [jsSetDedup]
  | cons x xs ih =>
    by_cases h : a = x <;> simp [jsSetDedup, List.mem_filter, h, ih]

/-- The first-occurrence deduplication has no duplicates. -/
theorem nodup_jsSetDedup {α : Type} [DecidableEq α] (l : List α) :
    (jsSetDedup l).Nodup := by
  induction l with
  | nil => simp [jsSetDedup]
  | cons x xs ih =>
    refine List.nodup_cons.mpr ⟨?_, ih.filter _⟩
    simp [List.mem_filter]

/-- The length of the first-occurrence deduplication is the number of
distinct elements. -/
theorem length_jsSetDedup {α : Type} [DecidableEq α] (l : List α) :
    (jsSetDedup l).length = l.toFinset.card := by
  have h1 : (jsSetDedup l).toFinset = l.toFinset :=
    List.toFinset.ext (fun a => mem_jsSetDedup)
  rw [← h1, List.toFinset_card_of_nodup (nodup_jsSetDedup l)]

/-- The attempt counter computed by a chat response: decrement clamped at
zero exactly when nothing was matched and the guess is not a help request. -/
theorem mkResponse_attempts (s : GameState) (g : List Char) (m : List (List Char)) :
    (mkResponse s g m).attemptsRemaining =
      if (m.map lowerList).isEmpty && !(isHelpRequest (normalizeGuess g)) then
        max 0 (s.attemptsRemaining - 1)
      else s.attemptsRemaining := rfl

/-- The found list computed by a chat response. -/
theorem mkResponse_correct (s : GameState) (g : List Char) (m : List (List Char)) :
    (mkResponse s g m).correctFeatures =
      jsSetDedup (s.correctFeatures ++
        s.imageFeatures.filter (fun f => (m.map lowerList).contains (lowerList f))) := rfl

/-- The all-found flag of a chat response compares the deduplicated found
list length with the feature list length. -/
theorem mkResponse_allFound (s : GameState) (g : List Char) (m : List (List Char)) :
    (mkResponse s g m).allFeaturesFound =
      ((mkResponse s g m).correctFeatures.length == s.imageFeatures.length) := rfl

/-- The finished flag of a chat response is the all-found flag or the updated
attempts being at most zero. -/
theorem mkResponse_finished (s : GameState) (g : List Char) (m : List (List Char)) :
    (mkResponse s g m).gameTrulyFinished =
      ((mkResponse s g m).allFeaturesFound ||
        decide ((mkResponse s g m).attemptsRemaining ≤ 0)) := rfl

/-- A successful chat round is a successful matcher run followed by the pure
response computation. -/
theorem applyGuess_ok {s : GameState} {g : List Char} {r : ChatResponse}
    (h : applyGuess s g = Except.ok r) :
    ∃ m, matchedFeatures g s.imageFeatures s.correctFeatures = Except.ok m ∧
      r = mkResponse s g m := by
  unfold applyGuess at h
  cases hm : matchedFeatures g s.imageFeatures s.correctFeatures with
  | error e => rw [hm] at h; cases h
  | ok m =>
    rw [hm] at h
    exact ⟨m, rfl, (Except.ok.inj h).symm⟩

/-- Every successful chat round either keeps the attempt counter or replaces
it by the clamped decrement. -/
theorem attempts_cases {s : GameState} {g : List Char} {r : ChatResponse}
    (h : applyGuess s g = Except.ok r) :
    r.attemptsRemaining = s.attemptsRemaining ∨
      r.attemptsRemaining = max 0 (s.attemptsRemaining - 1) := by
  obtain ⟨m, hm, rfl⟩ := applyGuess_ok h
  rw [mkResponse_attempts]
  split
  · exact Or.inr rfl
  · exact Or.inl rfl

/-- Every reachable client state has a non-negative attempt counter. -/
theorem reachable_nonneg {s : GameState} (h : Reachable s) :
    0 ≤ s.attemptsRemaining := by
  induction h with
  | init features m hm => exact hm
  | step s g r hs hok ih =>
    show 0 ≤ r.attemptsRemaining
    rcases attempts_cases hok with h' | h'
    · rw [h']; exact ih
    · rw [h']; exact le_max_left 0 _

/-- Claim C1 is false as stated: the spec triple-OR rule (guess equals
feature, or either contains the other as a substring, after trimming and
lower-casing) marks feature "dog" for the guess "dog house", but the matcher
of the mature `api.chat.ts` revision marks nothing for that guess, because it
requires exact equality, a constant whole-word regex on the feature, or the
guess occurring in the feature with word boundaries. -/
theorem c1_counterexample :
    specTripleOrRule "dog house".toList "dog".toList = true ∧
    matchedFeatures "dog house".toList ["dog".toList] [] = Except.ok [] := by
  constructor
  · decide
  · decide

/-- Claim C1 (amended): for a guess whose normalized form contains no regex
metacharacter, the matcher marks a feature not already found as newly matched
if and only if the normalized guess equals the normalized feature, or the
normalized feature contains "type of ears" or "folded" as a whole word, or
the normalized feature contains the normalized guess delimited by word
boundaries. -/
theorem c1_matcher_rule (g f : List Char) (fs found m : List (List Char))
    (hsafe : regexSafe (normalizeGuess g) = true)
    (hm : matchedFeatures g fs found = Except.ok m) :
    (f ∈ m ↔ f ∈ fs ∧ normalizeFeature f ∉ found.map lowerList ∧
      (normalizeGuess g = normalizeFeature f ∨
       containsWholeWord "type of ears".toList (normalizeFeature f) = true ∨
       containsWholeWord "folded".toList (normalizeFeature f) = true ∨
       containsWholeWord (normalizeGuess g) (normalizeFeature f) = true)) := by
  rw [matchedFeatures_eq_filter hsafe] at hm
  rw [← Except.ok.inj hm, List.mem_filter]
  unfold featurePredicateBool
  simp [and_assoc, or_assoc]

/-- Witness for the amended claim C1 at the guess "dog" and the single
feature "dog": the exact-equality disjunct fires. -/
theorem c1_matcher_rule_witness :
    ("dog".toList ∈ (["dog".toList] : List (List Char)) ↔
      "dog".toList ∈ (["dog".toList] : List (List Char)) ∧
      normalizeFeature "dog".toList ∉ ([] : List (List Char)).map lowerList ∧
      (normalizeGuess "dog".toList = normalizeFeature "dog".toList ∨
       containsWholeWord "type of ears".toList (normalizeFeature "dog".toList) = true ∨
       containsWholeWord "folded".toList (normalizeFeature "dog".toList) = true ∨
       containsWholeWord (normalizeGuess "dog".toList)
         (normalizeFeature "dog".toList) = true)) :=
  c1_matcher_rule "dog".toList "dog".toList ["dog".toList] [] ["dog".toList]
    (by decide) (by decide)

/-- Claim C2 is false as stated at a state with zero attempts remaining: the
guess "xyz" matches nothing and is not a help request, yet the counter stays
at 0 instead of being decremented by exactly one, because the code clamps the
decrement with `Math.max(0, ...)`. -/
theorem c2_counterexample :
    matchedFeatures "xyz".toList ["dog".toList] [] = Except.ok [] ∧
    isHelpRequest (normalizeGuess "xyz".toList) = false ∧
    applyGuess ⟨["dog".toList], [], 0⟩ "xyz".toList =
      Except.ok ⟨[], 0, false, true⟩ ∧
    (0 : Int) ≠ (0 : Int) - 1 := by decide

/-- Claim C2 (amended): in a successful chat round, the counter is
decremented by exactly one if and only if the guess matched no new feature,
is not a help request, and at least one attempt remains; a guess that matches
a new feature or is a help request always leaves the counter unchanged (and
a failed non-help guess at zero attempts leaves it at zero, clamped). -/
theorem c2_attempts (s : GameState) (g : List Char) (m : List (List Char))
    (r : ChatResponse)
    (hm : matchedFeatures g s.imageFeatures s.correctFeatures = Except.ok m)
    (hr : applyGuess s g = Except.ok r) :
    (r.attemptsRemaining = s.attemptsRemaining - 1 ↔
      (m = [] ∧ isHelpRequest (normalizeGuess g) = false ∧ 1 ≤ s.attemptsRemaining)) ∧
    ((m ≠ [] ∨ isHelpRequest (normalizeGuess g) = true) →
      r.attemptsRemaining = s.attemptsRemaining) := by
  obtain ⟨m', hm', rfl⟩ := applyGuess_ok hr
  rw [hm'] at hm
  obtain rfl : m' = m := Except.ok.inj hm
  rw [mkResponse_attempts]
  by_cases hm0 : m' = []
  · subst hm0
    cases hh : isHelpRequest (normalizeGuess g) <;> simp [hh] <;> omega
  · have hne : (List.map lowerList m').isEmpty = false := by
      cases m' with
      | nil => exact absurd rfl hm0
      | cons a l => rfl
    simp [hne, hm0]
    omega

/-- Witness for the amended claim C2 at a failed guess with three attempts
remaining: the counter drops from 3 to 2. -/
theorem c2_attempts_witness :
    ((2 : Int) = (3 : Int) - 1 ↔
      (([] : List (List Char)) = [] ∧
        isHelpRequest (normalizeGuess "xyz".toList) = false ∧ (1 : Int) ≤ 3)) ∧
    ((([] : List (List Char)) ≠ [] ∨
        isHelpRequest (normalizeGuess "xyz".toList) = true) → (2 : Int) = 3) :=
  c2_attempts ⟨["dog".toList], [], 3⟩ "xyz".toList [] ⟨[], 2, false, false⟩
    (by decide) (by decide)

/-- Claim C3: in every successful chat round starting from a non-negative
counter, the finished flag of the response is true exactly when all features
are found or the updated counter is zero; the win threshold plays no part
(the mature revision does not even read it). -/
theorem c3_finished_iff (s : GameState) (g : List Char) (r : ChatResponse)
    (h0 : 0 ≤ s.attemptsRemaining) (hr : applyGuess s g = Except.ok r) :
    (r.gameTrulyFinished = true ↔
      (r.allFeaturesFound = true ∨ r.attemptsRemaining = 0)) := by
  have hnn : 0 ≤ r.attemptsRemaining := by
    rcases attempts_cases hr with h' | h'
    · rw [h']; exact h0
    · rw [h']; exact le_max_left 0 _
  obtain ⟨m, hm, rfl⟩ := applyGuess_ok hr
  rw [mkResponse_finished]
  simp only [Bool.or_eq_true, decide_eq_true_eq]
  constructor
  · rintro (h | h)
    · exact Or.inl h
    · exact Or.inr (le_antisymm h hnn)
  · rintro (h | h)
    · exact Or.inl h
    · exact Or.inr (le_of_eq h)

/-- Witness for claim C3 at a failed guess from one remaining attempt: the
counter reaches 0 and the response is finished. -/
theorem c3_finished_iff_witness :
    ((⟨[], 0, false, true⟩ : ChatResponse).gameTrulyFinished = true ↔
      ((⟨[], 0, false, true⟩ : ChatResponse).allFeaturesFound = true ∨
        (⟨[], 0, false, true⟩ : ChatResponse).attemptsRemaining = 0)) :=
  c3_finished_iff ⟨["dog".toList], [], 1⟩ "xyz".toList ⟨[], 0, false, true⟩
    (by decide) (by decide)

/-- Claim C4: every state reachable in the client loop has a non-negative
attempt counter, and every successful chat round from a reachable state
produces a counter that did not increase and is still non-negative. -/
theorem c4_attempts_monotone (s : GameState) (g : List Char) (r : ChatResponse)
    (hs : Reachable s) :
    0 ≤ s.attemptsRemaining ∧
      (applyGuess s g = Except.ok r →
        r.attemptsRemaining ≤ s.attemptsRemaining ∧ 0 ≤ r.attemptsRemaining) := by
  have h0 := reachable_nonneg hs
  refine ⟨h0, fun h => ?_⟩
  rcases attempts_cases h with h' | h' <;> rw [h']
  · exact ⟨le_refl _, h0⟩
  · exact ⟨by omega, le_max_left 0 _⟩

/-- Witness for claim C4 at a fresh three-attempt game and a failed guess. -/
theorem c4_attempts_monotone_witness :
    (0 : Int) ≤ 3 ∧
      (applyGuess ⟨["dog".toList], [], 3⟩ "xyz".toList =
          Except.ok ⟨[], 2, false, false⟩ →
        (2 : Int) ≤ 3 ∧ (0 : Int) ≤ 2) :=
  c4_attempts_monotone ⟨["dog".toList], [], 3⟩ "xyz".toList ⟨[], 2, false, false⟩
    (Reachable.init ["dog".toList] 3 (by decide))

/-- Claim C5 is false as stated: the guess "hint" is a help request, yet it
is not exempt from matching — it equals the feature "hint", which is added to
the found set.  The attempt counter is indeed unchanged. -/
theorem c5_counterexample :
    isHelpRequest (normalizeGuess "hint".toList) = true ∧
    applyGuess ⟨["hint".toList], [], 5⟩ "hint".toList =
      Except.ok ⟨["hint".toList], 5, true, true⟩ ∧
    (["hint".toList] : List (List Char)) ≠ [] := by decide

/-- Claim C5 (amended): a help-request guess never changes the attempt
counter in a successful chat round; it is however not exempt from feature
matching and may still add features to the found set. -/
theorem c5_help_preserves_attempts (s : GameState) (g : List Char) (r : ChatResponse)
    (hh : isHelpRequest (normalizeGuess g) = true)
    (hr : applyGuess s g = Except.ok r) :
    r.attemptsRemaining = s.attemptsRemaining := by
  obtain ⟨m, hm, rfl⟩ := applyGuess_ok hr
  rw [mkResponse_attempts, hh]
  simp

/-- Witness for the amended claim C5 at the help guess "give me a hint"
against the single feature "dog": attempts stay at 5. -/
theorem c5_help_preserves_attempts_witness :
    (⟨[], 5, false, false⟩ : ChatResponse).attemptsRemaining =
      (⟨["dog".toList], [], 5⟩ : GameState).attemptsRemaining :=
  c5_help_preserves_attempts ⟨["dog".toList], [], 5⟩ "give me a hint".toList
    ⟨[], 5, false, false⟩ (by decide) (by decide)

/-- Claim C6 is false as stated: the state with feature "dog", nothing found
and zero attempts is finished (attempts exhausted), yet applying the guess
"dog" is not a no-op — the feature is added to the found set. -/
theorem c6_counterexample :
    (⟨["dog".toList], [], 0⟩ : GameState).attemptsRemaining = 0 ∧
    applyGuess ⟨["dog".toList], [], 0⟩ "dog".toList =
      Except.ok ⟨["dog".toList], 0, true, true⟩ ∧
    (["dog".toList] : List (List Char)) ≠ ([] : List (List Char)) := by decide

/-- Claim C6 (amended): from a well-formed finished state — either every
feature is already in the found list and the deduplicated found list has the
full feature count, or the counter is zero — a successful chat round always
reports the game as still finished and never increases the counter; the state
is however not immutable (see the counterexample). -/
theorem c6_finished_monotone (s : GameState) (g : List Char) (r : ChatResponse)
    (h0 : 0 ≤ s.attemptsRemaining)
    (hfin : ((∀ f ∈ s.imageFeatures, f ∈ s.correctFeatures) ∧
        (jsSetDedup s.correctFeatures).length = s.imageFeatures.length) ∨
      s.attemptsRemaining = 0)
    (hr : applyGuess s g = Except.ok r) :
    r.gameTrulyFinished = true ∧ r.attemptsRemaining ≤ s.attemptsRemaining := by
  have hle : r.attemptsRemaining ≤ s.attemptsRemaining := by
    rcases attempts_cases hr with h' | h' <;> rw [h'] <;> omega
  refine ⟨?_, hle⟩
  obtain ⟨m, hm, rfl⟩ := applyGuess_ok hr
  rcases hfin with ⟨hsub, hlen⟩ | hzero
  · rw [mkResponse_finished, mkResponse_allFound, mkResponse_correct]
    have hset : (s.correctFeatures ++
        s.imageFeatures.filter
          (fun f => (m.map lowerList).contains (lowerList f))).toFinset =
        s.correctFeatures.toFinset := by
      apply List.toFinset.ext
      intro a
      simp only [List.mem_append]
      constructor
      · rintro (h | h)
        · exact h
        · exact hsub a (List.mem_of_mem_filter h)
      · exact Or.inl
    rw [length_jsSetDedup, hset, ← length_jsSetDedup, hlen]
    simp
  · have hz : (mkResponse s g m).attemptsRemaining ≤ 0 := by
      have := hle
      omega
    rw [mkResponse_finished]
    simp [hz]

/-- Witness for the amended claim C6 at a finished (zero-attempt) state and a
failed guess: the response is still finished and the counter stays at 0. -/
theorem c6_finished_monotone_witness :
    (⟨[], 0, false, true⟩ : ChatResponse).gameTrulyFinished = true ∧
      (⟨[], 0, false, true⟩ : ChatResponse).attemptsRemaining ≤
        (⟨["dog".toList], [], 0⟩ : GameState).attemptsRemaining :=
  c6_finished_monotone ⟨["dog".toList], [], 0⟩ "xyz".toList ⟨[], 0, false, true⟩
    (by decide) (Or.inr rfl) (by decide)

/-- Claim C7 identifies a code bug: the guess "(" reaches the dynamically
built regex `new RegExp("\\b" + lowerAttempt + "\\b")`, whose pattern has an
unterminated group, so the matching step throws instead of returning a
result, contradicting the no-exception requirement. -/
theorem c7_regex_throws :
    matchedFeatures "(".toList ["dog".toList] [] = Except.error () := by decide

/-- Claim C8: the restore logic discards (yields no state from) every parsed
snapshot that is already finished or whose image id differs from the image id
in the URL; consequently a snapshot is ever restored only when its image id
matches and it is not finished. -/
theorem c8_resume_rejects (st : ClientGameState) (urlImageId : Option Int)
    (loaderMax loaderWin : Int)
    (h : st.gameTrulyFinished = true ∨ st.imageId ≠ urlImageId) :
    resumeSession (some st) urlImageId loaderMax loaderWin = none := by
  unfold resumeSession
  rcases h with h | h
  · simp [h]
  · simp [h]

/-- Witness for claim C8 at a finished snapshot whose image id matches the
URL: it is still discarded. -/
theorem c8_resume_rejects_witness :
    resumeSession (some ⟨some 1, true, true, [], 2, 5, 3⟩) (some 1) 5 3 = none :=
  c8_resume_rejects ⟨some 1, true, true, [], 2, 5, 3⟩ (some 1) 5 3 (Or.inl rfl)

/-- Claim C9 is false as stated: the feature "folded ears" contains "folded"
as a whole word and is not yet found, but for the guess "(" the matcher marks
nothing at all — the filter callback throws on the earlier feature "cat"
before the constant regex can fire. -/
theorem c9_counterexample :
    containsWholeWord "folded".toList (normalizeFeature "folded ears".toList) = true ∧
    matchedFeatures "(".toList ["cat".toList, "folded ears".toList] [] =
      Except.error () := by decide

/-- Claim C9 (amended): whenever the matcher completes without throwing, any
feature whose normalized text contains "type of ears" or "folded" as a whole
word and that is not already found is marked newly matched, regardless of the
guess. -/
theorem c9_constant_regex (g f : List Char) (fs found m : List (List Char))
    (hm : matchedFeatures g fs found = Except.ok m)
    (hf : f ∈ fs)
    (hskip : normalizeFeature f ∉ found.map lowerList)
    (hw : containsWholeWord "type of ears".toList (normalizeFeature f) = true ∨
      containsWholeWord "folded".toList (normalizeFeature f) = true) :
    f ∈ m := by
  unfold matchedFeatures at hm
  apply mem_of_filterExcept_ok hm hf
  unfold featurePredicate featureTest
  by_cases h1 : normalizeGuess g = normalizeFeature f
  · simp [hskip, h1]
  · rcases hw with hw | hw <;> simp at hw <;> simp [hskip, h1, hw]

/-- Witness for the amended claim C9: the guess "xyz" marks the not-yet-found
feature "folded ears" because of the constant whole-word regex. -/
theorem c9_constant_regex_witness :
    "folded ears".toList ∈ (["folded ears".toList] : List (List Char)) :=
  c9_constant_regex "xyz".toList "folded ears".toList ["folded ears".toList] []
    ["folded ears".toList] (by decide) (by decide) (by decide)
    (Or.inr (by decide))

/-- Claim C10: the hint wrapper is a total function of the provider outcome
(the whole body is inside a try/catch, so it never raises); a caught error
whose message contains "SAFETY" yields the content-blocked reply, any other
caught error yields the generic apology, and the two replies are distinct. -/
theorem c10_hint_error_handling (msg : List Char) :
    (containsSub "SAFETY".toList msg = true →
      getGeminiHint (GeminiOutcome.failure msg) = safetyBlockedMessage) ∧
    (containsSub "SAFETY".toList msg = false →
      getGeminiHint (GeminiOutcome.failure msg) = genericFailureMessage) ∧
    safetyBlockedMessage ≠ genericFailureMessage := by
  refine ⟨fun h => ?_, fun h => ?_, by decide⟩
  · show (if containsSub "SAFETY".toList msg = true then safetyBlockedMessage
      else genericFailureMessage) = safetyBlockedMessage
    rw [if_pos h]
  · show (if containsSub "SAFETY".toList msg = true then safetyBlockedMessage
      else genericFailureMessage) = genericFailureMessage
    rw [if_neg (by rw [h]; exact Bool.false_ne_true)]

/-- Witness for claim C10 at a safety rejection and at a plain network
error. -/
theorem c10_hint_error_handling_witness :
    getGeminiHint (GeminiOutcome.failure "SAFETY".toList) = safetyBlockedMessage ∧
    getGeminiHint (GeminiOutcome.failure "timeout".toList) = genericFailureMessage :=
  ⟨(c10_hint_error_handling "SAFETY".toList).1 (by decide),
   (c10_hint_error_handling "timeout".toList).2.1 (by decide)⟩

end VisoLearn
